import Mathlib

/-!
Verification of the inference-serving cache and recommendation pipeline of the
planted-dating-app ML engine (`ml-engine/inference/realtime_inference.py` and
the serving-relevant slice of `ml-engine/models/hybrid_recommender.py`).

Shallow embedding conventions:
* Python floats are modelled as `ℚ` (all arithmetic on the serving path is
  plain field arithmetic; cached scores round-trip exactly through
  `str`/`float`).
* The Redis cache is a per-key map `String → Option (value × ttl)`; an entry
  being absent models both "never written" and "expired/evicted" (the tier may
  evict at any time, so quantifying over arbitrary cache states covers expiry).
  `setex` stores the ttl argument alongside the value so that theorems can talk
  about which TTL a write used.  The profile cache key `"user_profile:{id}"`
  and the matches key `"matches:{id}"` are injective in the id, so those two
  maps are keyed by the bare id; the compatibility cache is keyed by the full
  key string built by `compatKey`, because that construction is *not* injective
  and collisions must be observable.
* The Postgres store and the trained scoring model are the external
  collaborators: the store is a parameter `Database` (row lookup plus the
  active-user roster ordered by recency), and the trained
  `CompatibilityScorer.predict` (scaler + regressor loaded from disk) is an
  opaque parameter `Model.g`; `none` models the scorer raising (e.g. model not
  trained), which the engine catches.  `np.linalg.norm`'s square root is the
  opaque parameter `Model.sqrtFn`.  The deep network is `None` on every serving
  path (`load_model` never reconstructs it), so `deep_score` is the constant
  `0.5` exactly as in the source.
* `async` methods suspend only at cache/store/model calls and share no state
  besides the caches, so a run is embedded as explicit state passing; the
  `asyncio.gather` fan-out delivers its results in task order, which the
  embedding realises by folding the candidate list in order.
* Counters `dbReads` / `modelCalls` instrument the store reads and scoring
  invocations that several spec properties count.
-/

/-- One user row as the serving core sees it: the `user_id` column plus the
remaining numeric columns of the `user_profiles` dict (a dict always contains
`user_id`, hence is always truthy in Python). -/
structure Profile where
  user_id : String
  attrs : List (String × ℚ)
deriving DecidableEq, Repr

/-- The dict passed to the model: `{k: v for k, v in profile.items() if k != 'user_id'}`
(`realtime_inference.py` lines 357-358). -/
def Profile.data (p : Profile) : List (String × ℚ) :=
  p.attrs.filter (fun kv => kv.1 ≠ "user_id")

/-- External Profile Store: row lookup (`DatabaseManager.get_user_profile`) and
the active-user roster ordered by recency descending; `get_active_users` takes
the first `limit` of it (the SQL `ORDER BY last_active DESC LIMIT %s`). -/
structure Database where
  profiles : String → Option Profile
  activeUsers : List String

/-- `DatabaseManager.get_active_users(limit)`. -/
def Database.get_active_users (db : Database) (limit : ℕ) : List String :=
  db.activeUsers.take limit

/-- The configuration fields of `InferenceConfig` that the serving path reads,
with the source's defaults.  `cache_ttl` is a Python int. -/
structure InferenceConfig where
  cache_ttl : Int := 3600
  max_candidates : ℕ := 1000
  precompute_batch_size : ℕ := 100
deriving DecidableEq, Repr

/-- TTL used for profile entries: `setex(..., self.config.cache_ttl, ...)`. -/
def profile_ttl (c : InferenceConfig) : Int := c.cache_ttl

/-- TTL used for compatibility entries: `setex(key, self.config.cache_ttl * 2, ...)`. -/
def compat_ttl (c : InferenceConfig) : Int := c.cache_ttl * 2

/-- TTL used for precomputed match lists: `setex(..., self.config.cache_ttl * 6, ...)`. -/
def list_ttl (c : InferenceConfig) : Int := c.cache_ttl * 6

/-- Lexicographic comparison of code-point lists, the order Python's `sorted`
uses on `str`. -/
def lexLe : List Char → List Char → Bool
  | [], _ => true
  | _ :: _, [] => false
  | a :: as, b :: bs => if a < b then true else if b < a then false else lexLe as bs

/-- Canonical compatibility cache key,
`f"compat:{':'.join(sorted([user1_id, user2_id]))}"`
(`CacheManager.get_compatibility_score`, line 158). -/
def compatKey (a b : String) : String :=
  if lexLe a.data b.data then "compat:" ++ a ++ ":" ++ b else "compat:" ++ b ++ ":" ++ a

/-- The mutable state a request run threads: the three cache families plus the
engine's bookkeeping counters. -/
structure EngineState where
  profileCache : String → Option (Profile × Int)
  compatCache : String → Option (ℚ × Int)
  matchesCache : String → Option (List (String × ℚ) × Int)
  dbReads : ℕ
  modelCalls : ℕ
  cacheHits : ℕ
  requestCount : ℕ

/-- The empty (cold) cache state. -/
def initState : EngineState :=
  { profileCache := fun _ => none
    compatCache := fun _ => none
    matchesCache := fun _ => none
    dbReads := 0, modelCalls := 0, cacheHits := 0, requestCount := 0 }

/-- Point update of a cache map (Redis `setex`). -/
def updMap {α : Type} (m : String → Option α) (k : String) (v : α) : String → Option α :=
  fun k' => if k' = k then some v else m k'

/-- `PlantedFeatureEncoder.encode_dietary_journey`. -/
def encode_dietary_journey (d : List (String × ℚ)) : List ℚ :=
  [(d.lookup "motivation_score").getD (1/2),
   (d.lookup "strictness_level").getD (1/2),
   (d.lookup "journey_stage").getD (1/2),
   (d.lookup "social_comfort").getD (1/2)]

/-- `PlantedFeatureEncoder.encode_values_alignment`. -/
def encode_values_alignment (d : List (String × ℚ)) : List ℚ :=
  [(d.lookup "animal_rights_score").getD (1/2),
   (d.lookup "environmental_score").getD (1/2),
   (d.lookup "health_motivation").getD (1/2),
   (d.lookup "spiritual_connection").getD (1/2),
   (d.lookup "activism_level").getD (1/2)]

/-- `PlantedFeatureEncoder.encode_lifestyle_compatibility`. -/
def encode_lifestyle_compatibility (d : List (String × ℚ)) : List ℚ :=
  [(d.lookup "cooking_skill_level").getD (1/2),
   (d.lookup "sustainability_practices").getD (1/2),
   (d.lookup "community_involvement").getD (1/2)]

/-- `PlantedFeatureEncoder.encode_behavioral_features`. -/
def encode_behavioral_features (d : List (String × ℚ)) : List ℚ :=
  [(d.lookup "swipe_selectivity").getD (1/2),
   (d.lookup "message_quality_score").getD (1/2),
   (d.lookup "response_time_pattern").getD (1/2),
   (d.lookup "engagement_depth").getD (1/2),
   (d.lookup "profile_completion").getD (1/2),
   (d.lookup "activity_frequency").getD (1/2)]

/-- `PlantedFeatureEncoder.encode_user_features`: the four groups concatenated. -/
def encode_user_features (d : List (String × ℚ)) : List ℚ :=
  encode_dietary_journey d ++ encode_values_alignment d ++
    encode_lifestyle_compatibility d ++ encode_behavioral_features d

/-- The 18 attribute names, in the order `encode_user_features` emits them. -/
def schemaAttrs : List String :=
  ["motivation_score", "strictness_level", "journey_stage", "social_comfort",
   "animal_rights_score", "environmental_score", "health_motivation",
   "spiritual_connection", "activism_level",
   "cooking_skill_level", "sustainability_practices", "community_involvement",
   "swipe_selectivity", "message_quality_score", "response_time_pattern",
   "engagement_depth", "profile_completion", "activity_frequency"]

/-- The opaque parts of `HybridRecommender` as deployed: the trained
`CompatibilityScorer.predict` pipeline `g` (`none` = the scorer raises, e.g.
"Model not trained yet"), the square root used by `np.linalg.norm`, and the
ensemble weights (defaults from `__init__`; `load_model` may replace them). -/
structure Model where
  g : List ℚ → Option ℚ
  sqrtFn : ℚ → ℚ
  wc : ℚ := 2/5
  wd : ℚ := 2/5
  wcol : ℚ := 1/5

/-- Dot product of two feature vectors (`np.dot` on equal-length vectors). -/
def dotL (xs ys : List ℚ) : ℚ :=
  ((xs.zip ys).map (fun p => p.1 * p.2)).sum

/-- `HybridRecommender._compute_collaborative_score`: cosine similarity of the
two encoded feature vectors, rescaled to `[0,1]`, with the zero-norm guard. -/
def compute_collaborative_score (M : Model) (d1 d2 : List (String × ℚ)) : ℚ :=
  let f1 := encode_user_features d1
  let f2 := encode_user_features d2
  let dot := dotL f1 f2
  let n1 := M.sqrtFn (dotL f1 f1)
  let n2 := M.sqrtFn (dotL f2 f2)
  if n1 = 0 ∨ n2 = 0 then 1/2
  else (dot / (n1 * n2) + 1) / 2

/-- `np.clip(x, 0, 1)`: values below 0 become 0, values above 1 become 1. -/
def clip01 (x : ℚ) : ℚ := if x < 0 then 0 else if 1 < x then 1 else x

/-- `HybridRecommender.predict_compatibility` (lines 342-373): encode both
users, feed the concatenation `[features1, features2]` (in argument order) to
the trained scorer, ensemble with the constant deep score `0.5` (the deep
network is `None` when serving) and the collaborative score, and clip to
`[0,1]`.  `none` propagates a scorer exception. -/
def hybrid_predict_compatibility (M : Model) (d1 d2 : List (String × ℚ)) : Option ℚ :=
  match M.g (encode_user_features d1 ++ encode_user_features d2) with
  | none => none
  | some c =>
      some (clip01 (M.wc * c + M.wd * (1/2) +
        M.wcol * compute_collaborative_score M d1 d2))

/-- `ModelInferenceEngine.get_user_profile` (lines 321-338): cache first
(a cached profile dict is always truthy), else one store read; a found row is
written back with `cache_ttl`; a missing row is returned as `None` with no
negative caching. -/
def get_user_profile (cfg : InferenceConfig) (db : Database) (u : String)
    (s : EngineState) : Option Profile × EngineState :=
  match s.profileCache u with
  | some (p, _) => (some p, { s with cacheHits := s.cacheHits + 1 })
  | none =>
      let s1 := { s with dbReads := s.dbReads + 1 }
      match db.profiles u with
      | some p =>
          (some p,
           { s1 with profileCache := updMap s1.profileCache u (p, profile_ttl cfg) })
      | none => (none, s1)

/-- `ModelInferenceEngine.predict_compatibility` (lines 340-370): canonical-key
cache check; on miss resolve both profiles, return the neutral `0.5` without
caching if either is missing; otherwise invoke the model (counted), cache a
successful score with `cache_ttl * 2`, and turn a scorer exception into `0.5`. -/
def predict_compatibility (M : Model) (cfg : InferenceConfig) (db : Database)
    (u1 u2 : String) (s : EngineState) : ℚ × EngineState :=
  match s.compatCache (compatKey u1 u2) with
  | some (v, _) => (v, { s with cacheHits := s.cacheHits + 1 })
  | none =>
      let r1 := get_user_profile cfg db u1 s
      let r2 := get_user_profile cfg db u2 r1.2
      match r1.1, r2.1 with
      | some q1, some q2 =>
          let s3 := { r2.2 with modelCalls := r2.2.modelCalls + 1 }
          match hybrid_predict_compatibility M q1.data q2.data with
          | some sc =>
              let s4 := { s3 with
                compatCache := updMap s3.compatCache (compatKey u1 u2) (sc, compat_ttl cfg) }
              (sc, s4)
          | none => (1/2, s3)
      | _, _ => (1/2, r2.2)

/-- Python's stable `list.sort(key=score, reverse=True)` step: insert an
element after every earlier element of score `≥` its own. -/
def insertRec (p : String × ℚ) : List (String × ℚ) → List (String × ℚ)
  | [] => [p]
  | q :: qs => if p.2 < q.2 then q :: insertRec p qs else p :: q :: qs

/-- `recommendations.sort(key=lambda x: x['compatibility_score'], reverse=True)`
(line 414): descending by score, equal scores keep their original order
(Python sorts are stable). -/
def rankRecommendations : List (String × ℚ) → List (String × ℚ)
  | [] => []
  | p :: ps => insertRec p (rankRecommendations ps)

/-- The `asyncio.gather` fan-out (lines 397-402): one `predict_compatibility`
per candidate, results in task order. -/
def scoreCandidates (M : Model) (cfg : InferenceConfig) (db : Database)
    (uid : String) : List String → EngineState → List ℚ × EngineState
  | [], s => ([], s)
  | c :: cs, s =>
      let r := predict_compatibility M cfg db uid c s
      let rest := scoreCandidates M cfg db uid cs r.2
      (r.1 :: rest.1, rest.2)

/-- The non-fast-path body of `ModelInferenceEngine.get_recommendations`
(lines 383-425).  Note the source reassigns the `candidate_ids` variable when
the caller supplied none, so the later `if not candidate_ids:` on line 418
tests the *reassigned* list: the match-list cache is written exactly when the
final candidate list is empty. -/
def recommendCore (M : Model) (cfg : InferenceConfig) (db : Database)
    (uid : String) (cand : Option (List String)) (top_k : ℕ)
    (s : EngineState) : List (String × ℚ) × EngineState :=
  let r := get_user_profile cfg db uid s
  match r.1 with
  | none => ([], r.2)
  | some _ =>
      let cids : List String :=
        match cand with
        | some (c :: cs) => c :: cs
        | _ => (db.get_active_users cfg.max_candidates).filter (fun c => c ≠ uid)
      let sc := scoreCandidates M cfg db uid cids r.2
      let recs := rankRecommendations (cids.zip sc.1)
      let s3 :=
        match cids with
        | [] =>
            { sc.2 with
              matchesCache := updMap sc.2.matchesCache uid (recs.take 50, list_ttl cfg) }
        | _ :: _ => sc.2
      (recs.take top_k, { s3 with requestCount := s3.requestCount + 1 })

/-- `ModelInferenceEngine.get_recommendations` (lines 372-425): the fast path
returns the first `top_k` of a cached non-empty match list when the caller
supplied no (or an empty, hence falsy) candidate list; everything else runs the
scoring pipeline. -/
def get_recommendations (M : Model) (cfg : InferenceConfig) (db : Database)
    (uid : String) (cand : Option (List String)) (top_k : ℕ)
    (s : EngineState) : List (String × ℚ) × EngineState :=
  match s.matchesCache uid, cand with
  | some (m :: ms, _), none =>
      ((m :: ms).take top_k, { s with cacheHits := s.cacheHits + 1 })
  | some (m :: ms, _), some [] =>
      ((m :: ms).take top_k, { s with cacheHits := s.cacheHits + 1 })
  | _, _ => recommendCore M cfg db uid cand top_k s

/-- `_precompute_user_matches` (lines 537-543): invoke the ranker with
`top_k = 50` and discard the result; the intended side effect is the cache
write-back. -/
def warm (M : Model) (cfg : InferenceConfig) (db : Database) (uid : String)
    (s : EngineState) : EngineState :=
  (get_recommendations M cfg db uid none 50 s).2

/-! ## Concrete instances used by witnesses and counterexamples -/

/-- A trained scorer that returns the constant `0.7` for every input (a
perfectly legitimate regressor), with the square root left as `id` (the only
input it is ever applied to below is `1`, where `id` agrees with the real
square root). -/
def modelConst : Model := { g := fun _ => some (7/10), sqrtFn := id }

/-- A trained scorer returning the first entry of the concatenated feature
vector, i.e. the first user's first encoded attribute: a deterministic
regressor that is not symmetric under swapping its two profile blocks. -/
def modelHead : Model := { g := fun xs => some (xs.headD 0), sqrtFn := id }

/-- Attribute rows: all 18 schema attributes present, `motivation_score = 1`
and the rest `0` (an encoded unit vector). -/
def attrsMotiv : List (String × ℚ) :=
  [("motivation_score", 1), ("strictness_level", 0), ("journey_stage", 0),
   ("social_comfort", 0), ("animal_rights_score", 0), ("environmental_score", 0),
   ("health_motivation", 0), ("spiritual_connection", 0), ("activism_level", 0),
   ("cooking_skill_level", 0), ("sustainability_practices", 0),
   ("community_involvement", 0), ("swipe_selectivity", 0),
   ("message_quality_score", 0), ("response_time_pattern", 0),
   ("engagement_depth", 0), ("profile_completion", 0), ("activity_frequency", 0)]

/-- Same, but with `strictness_level = 1` instead: a unit vector orthogonal to
`attrsMotiv`. -/
def attrsStrict : List (String × ℚ) :=
  [("motivation_score", 0), ("strictness_level", 1), ("journey_stage", 0),
   ("social_comfort", 0), ("animal_rights_score", 0), ("environmental_score", 0),
   ("health_motivation", 0), ("spiritual_connection", 0), ("activism_level", 0),
   ("cooking_skill_level", 0), ("sustainability_practices", 0),
   ("community_involvement", 0), ("swipe_selectivity", 0),
   ("message_quality_score", 0), ("response_time_pattern", 0),
   ("engagement_depth", 0), ("profile_completion", 0), ("activity_frequency", 0)]

/-- A store holding users `u`, `a`, `b` (all with the `attrsMotiv` row) whose
active roster is `[u, a]`. -/
def dbMain : Database :=
  { profiles := fun u =>
      if u = "u" ∨ u = "a" ∨ u = "b" then some ⟨u, attrsMotiv⟩ else none
    activeUsers := ["u", "a"] }

/-- A store whose roster contains only the requesting user, so the
system-generated candidate list is empty after self-exclusion. -/
def dbSolo : Database :=
  { profiles := fun u => if u = "u" then some ⟨u, attrsMotiv⟩ else none
    activeUsers := ["u"] }

/-- A store with two users whose encoded feature vectors are orthogonal unit
vectors. -/
def dbOrtho : Database :=
  { profiles := fun u =>
      if u = "a" then some ⟨"a", attrsMotiv⟩
      else if u = "b" then some ⟨"b", attrsStrict⟩ else none
    activeUsers := [] }

/-- A store row that is missing 17 of the 18 schema attributes and carries an
out-of-range value for the one it has. -/
def rowPartial : Profile := ⟨"p", [("motivation_score", 7)]⟩

/-- A store holding only that partial row. -/
def dbPartial : Database :=
  { profiles := fun u => if u = "p" then some rowPartial else none
    activeUsers := [] }

/-- A configuration whose base TTL is zero; the source dataclass accepts it
without complaint. -/
def cfgZero : InferenceConfig := { cache_ttl := 0 }

/-! ## Basic facts about the lexicographic order and the canonical key -/

theorem lexLe_refl : ∀ l : List Char, lexLe l l = true := by
  intro l
  induction l with
  | nil => rfl
  | cons a as ih => simp [lexLe, lt_irrefl, ih]

theorem lexLe_total : ∀ l1 l2 : List Char, lexLe l1 l2 = true ∨ lexLe l2 l1 = true := by
  intro l1
  induction l1 with
  | nil => intro l2; left; rfl
  | cons a as ih =>
      intro l2
      cases l2 with
      | nil => right; rfl
      | cons b bs =>
          rcases lt_trichotomy a b with h | h | h
          · left; simp [lexLe, h]
          · subst h; rcases ih bs with h2 | h2 <;> simp [lexLe, lt_irrefl, h2]
          · right; simp [lexLe, h]

theorem lexLe_antisymm : ∀ l1 l2 : List Char, lexLe l1 l2 = true → lexLe l2 l1 = true → l1 = l2 := by
  intro l1
  induction l1 with
  | nil =>
      intro l2 _ h2
      cases l2 with
      | nil => rfl
      | cons b bs => simp [lexLe] at h2
  | cons a as ih =>
      intro l2 h1 h2
      cases l2 with
      | nil => simp [lexLe] at h1
      | cons b bs =>
          rcases lt_trichotomy a b with h | h | h
          · simp [lexLe, h, asymm h] at h2
          · subst h
            simp [lexLe, lt_irrefl] at h1 h2
            rw [ih bs h1 h2]
          · simp [lexLe, h, asymm h] at h1

theorem compatKey_comm (a b : String) : compatKey a b = compatKey b a := by
  unfold compatKey
  rcases h1 : lexLe a.data b.data with _ | _ <;> rcases h2 : lexLe b.data a.data with _ | _
  · rcases lexLe_total a.data b.data with h | h
    · rw [h] at h1; cases h1
    · rw [h] at h2; cases h2
  · rfl
  · rfl
  · have : a = b := String.ext (lexLe_antisymm _ _ h1 h2)
    subst this; rfl

theorem key_parts_eq : ∀ {m m' M M' : List Char}, ':' ∉ m → ':' ∉ m' →
    m ++ ':' :: M = m' ++ ':' :: M' → m = m' ∧ M = M' := by
  intro m
  induction m with
  | nil =>
      intro m' M M' _ hm' h
      cases m' with
      | nil => simpa using h
      | cons c cs =>
          simp only [List.nil_append, List.cons_append, List.cons.injEq] at h
          exact absurd (show ':' ∈ c :: cs by rw [← h.1]; exact List.mem_cons_self _ _) hm'
  | cons a as ih =>
      intro m' M M' hm hm' h
      cases m' with
      | nil =>
          simp only [List.nil_append, List.cons_append, List.cons.injEq] at h
          exact absurd (show ':' ∈ a :: as by rw [h.1]; exact List.mem_cons_self _ _) hm
      | cons b bs =>
          simp only [List.cons_append, List.cons.injEq] at h
          have hr := ih (fun hx => hm (List.mem_cons_of_mem a hx))
            (fun hx => hm' (List.mem_cons_of_mem b hx)) h.2
          exact ⟨by rw [h.1, hr.1], hr.2⟩

theorem compatKey_data (a b : String) (h : lexLe a.data b.data = true) :
    (compatKey a b).data = "compat:".data ++ a.data ++ ':' :: b.data := by
  have hc : (":" : String).data = [':'] := rfl
  simp [compatKey, h, String.data_append, hc]

theorem compatKey_inj (a b c d : String)
    (ha : ':' ∉ a.data) (hb : ':' ∉ b.data) (hc : ':' ∉ c.data) (hd : ':' ∉ d.data)
    (h : compatKey a b = compatKey c d) : (a = c ∧ b = d) ∨ (a = d ∧ b = c) := by
  have core : ∀ (x y z w : String), ':' ∉ x.data → ':' ∉ z.data →
      lexLe x.data y.data = true → lexLe z.data w.data = true →
      compatKey x y = compatKey z w → x = z ∧ y = w := by
    intro x y z w hx hz h1 h2 hk
    have hdata := congrArg String.data hk
    rw [compatKey_data x y h1, compatKey_data z w h2, List.append_assoc, List.append_assoc] at hdata
    have hdata2 := (List.append_cancel_left hdata : x.data ++ ':' :: y.data = z.data ++ ':' :: w.data)
    have hp := key_parts_eq hx hz hdata2
    exact ⟨String.ext hp.1, String.ext hp.2⟩
  rcases h1 : lexLe a.data b.data with _ | _ <;> rcases h2 : lexLe c.data d.data with _ | _
  · have h1' : lexLe b.data a.data = true := by
      rcases lexLe_total a.data b.data with hx | hx
      · rw [hx] at h1; cases h1
      · exact hx
    have h2' : lexLe d.data c.data = true := by
      rcases lexLe_total c.data d.data with hx | hx
      · rw [hx] at h2; cases h2
      · exact hx
    have := core b a d c hb hd h1' h2' (by rw [compatKey_comm b a, compatKey_comm d c]; exact h)
    exact Or.inl ⟨this.2, this.1⟩
  · have h1' : lexLe b.data a.data = true := by
      rcases lexLe_total a.data b.data with hx | hx
      · rw [hx] at h1; cases h1
      · exact hx
    have := core b a c d hb hc h1' h2 (by rw [compatKey_comm b a]; exact h)
    exact Or.inr ⟨this.2, this.1⟩
  · have h2' : lexLe d.data c.data = true := by
      rcases lexLe_total c.data d.data with hx | hx
      · rw [hx] at h2; cases h2
      · exact hx
    have := core a b d c ha hd h1 h2' (by rw [compatKey_comm d c]; exact h)
    exact Or.inr ⟨this.1, this.2⟩
  · have := core a b c d ha hc h1 h2 h
    exact Or.inl this

/-! ## The stable descending sort -/

theorem length_insertRec (p : String × ℚ) (l : List (String × ℚ)) :
    (insertRec p l).length = l.length + 1 := by
  induction l with
  | nil => rfl
  | cons q qs ih => by_cases h : p.2 < q.2 <;> simp [insertRec, h, ih]

theorem mem_insertRec {x p : String × ℚ} {l : List (String × ℚ)} :
    x ∈ insertRec p l ↔ x = p ∨ x ∈ l := by
  induction l with
  | nil => simp [insertRec]
  | cons q qs ih =>
      by_cases h : p.2 < q.2
      · simp [insertRec, h, ih]; tauto
      · simp [insertRec, h, ih]

theorem length_rankRecommendations (l : List (String × ℚ)) :
    (rankRecommendations l).length = l.length := by
  induction l with
  | nil => rfl
  | cons p ps ih => simp [rankRecommendations, length_insertRec, ih]

theorem mem_rankRecommendations {x : String × ℚ} {l : List (String × ℚ)} :
    x ∈ rankRecommendations l ↔ x ∈ l := by
  induction l with
  | nil => simp [rankRecommendations]
  | cons p ps ih => simp [rankRecommendations, mem_insertRec, ih]

theorem pairwise_insertRec (p : String × ℚ) {l : List (String × ℚ)}
    (h : l.Pairwise (fun x y => y.2 ≤ x.2)) :
    (insertRec p l).Pairwise (fun x y => y.2 ≤ x.2) := by
  induction l with
  | nil => simp [insertRec]
  | cons q qs ih =>
      rcases List.pairwise_cons.1 h with ⟨hq, hqs⟩
      by_cases hlt : p.2 < q.2
      · rw [insertRec, if_pos hlt]
        refine List.pairwise_cons.2 ⟨?_, ih hqs⟩
        intro b hb
        rcases mem_insertRec.1 hb with hb | hb
        · exact hb ▸ le_of_lt hlt
        · exact hq b hb
      · rw [insertRec, if_neg hlt]
        refine List.pairwise_cons.2 ⟨?_, h⟩
        intro b hb
        rcases List.mem_cons.1 hb with hb | hb
        · exact hb ▸ le_of_not_lt hlt
        · exact le_trans (hq b hb) (le_of_not_lt hlt)

theorem pairwise_rankRecommendations (l : List (String × ℚ)) :
    (rankRecommendations l).Pairwise (fun x y => y.2 ≤ x.2) := by
  induction l with
  | nil => simp [rankRecommendations]
  | cons p ps ih => exact pairwise_insertRec p ih

/-! ## How each operation touches the state -/

theorem gup_compatCache (cfg : InferenceConfig) (db : Database) (u : String) (s : EngineState) :
    ((get_user_profile cfg db u s).2).compatCache = s.compatCache := by
  unfold get_user_profile
  cases hp : s.profileCache u with
  | some v => rfl
  | none => cases hd : db.profiles u with
    | some p => rfl
    | none => rfl

theorem gup_matchesCache (cfg : InferenceConfig) (db : Database) (u : String) (s : EngineState) :
    ((get_user_profile cfg db u s).2).matchesCache = s.matchesCache := by
  unfold get_user_profile
  cases hp : s.profileCache u with
  | some v => rfl
  | none => cases hd : db.profiles u with
    | some p => rfl
    | none => rfl

theorem gup_profileCache_other (cfg : InferenceConfig) (db : Database) (u v : String)
    (s : EngineState) (h : v ≠ u) :
    ((get_user_profile cfg db u s).2).profileCache v = s.profileCache v := by
  unfold get_user_profile
  cases hp : s.profileCache u with
  | some w => rfl
  | none => cases hd : db.profiles u with
    | some p => simp [updMap, h]
    | none => rfl

theorem gup_fst_congr (cfg : InferenceConfig) (db : Database) (u : String) (s s' : EngineState)
    (h : s.profileCache u = s'.profileCache u) :
    (get_user_profile cfg db u s).1 = (get_user_profile cfg db u s').1 := by
  unfold get_user_profile
  rw [h]
  cases hp : s'.profileCache u with
  | some v => rfl
  | none => cases hd : db.profiles u with
    | some p => rfl
    | none => rfl

theorem gup_after (cfg : InferenceConfig) (db : Database) (u v : String) (s : EngineState) :
    (get_user_profile cfg db u (get_user_profile cfg db v s).2).1 =
      (get_user_profile cfg db u s).1 := by
  by_cases huv : u = v
  · subst huv
    unfold get_user_profile
    cases hp : s.profileCache u with
    | some w => simp [hp]
    | none =>
        cases hd : db.profiles u with
        | some p => simp [hp, hd, updMap]
        | none => simp [hp, hd]
  · exact gup_fst_congr cfg db u _ s
      (gup_profileCache_other cfg db v u s (fun hx => huv hx))

theorem pc_profileCache_other (M : Model) (cfg : InferenceConfig) (db : Database)
    (u1 u2 v : String) (s : EngineState) (h1 : v ≠ u1) (h2 : v ≠ u2) :
    ((predict_compatibility M cfg db u1 u2 s).2).profileCache v = s.profileCache v := by
  unfold predict_compatibility
  cases hv : s.compatCache (compatKey u1 u2) with
  | some w => rfl
  | none =>
      simp only
      cases hp1 : (get_user_profile cfg db u1 s).1 with
      | none =>
          cases hp2 : (get_user_profile cfg db u2 (get_user_profile cfg db u1 s).2).1 with
          | none =>
              simp [hp1, hp2, gup_profileCache_other cfg db u2 v _ h2,
                gup_profileCache_other cfg db u1 v s h1]
          | some q2 =>
              simp [hp1, hp2, gup_profileCache_other cfg db u2 v _ h2,
                gup_profileCache_other cfg db u1 v s h1]
      | some q1 =>
          cases hp2 : (get_user_profile cfg db u2 (get_user_profile cfg db u1 s).2).1 with
          | none =>
              simp [hp1, hp2, gup_profileCache_other cfg db u2 v _ h2,
                gup_profileCache_other cfg db u1 v s h1]
          | some q2 =>
              cases hm : hybrid_predict_compatibility M q1.data q2.data with
              | none =>
                  simp [hp1, hp2, hm, gup_profileCache_other cfg db u2 v _ h2,
                    gup_profileCache_other cfg db u1 v s h1]
              | some sc =>
                  simp [hp1, hp2, hm, gup_profileCache_other cfg db u2 v _ h2,
                    gup_profileCache_other cfg db u1 v s h1]

theorem gup_fst (cfg : InferenceConfig) (db : Database) (u : String) (s : EngineState) :
    (get_user_profile cfg db u s).1 =
      (match s.profileCache u with
       | some pt => some pt.1
       | none => db.profiles u) := by
  unfold get_user_profile
  cases hp : s.profileCache u with
  | some v => rfl
  | none => cases hd : db.profiles u with
    | some p => rfl
    | none => rfl

theorem gup_profileCache_nodb (cfg : InferenceConfig) (db : Database) (u v : String)
    (s : EngineState) (hd : db.profiles u = none) :
    ((get_user_profile cfg db u s).2).profileCache v = s.profileCache v := by
  unfold get_user_profile
  cases hp : s.profileCache u with
  | some w => rfl
  | none => simp [hd]

theorem pc_compatCache_other (M : Model) (cfg : InferenceConfig) (db : Database)
    (u1 u2 : String) (K : String) (s : EngineState) (hk : K ≠ compatKey u1 u2) :
    ((predict_compatibility M cfg db u1 u2 s).2).compatCache K = s.compatCache K := by
  unfold predict_compatibility
  cases hv : s.compatCache (compatKey u1 u2) with
  | some w => rfl
  | none =>
      simp only
      cases hp1 : (get_user_profile cfg db u1 s).1 with
      | none =>
          cases hp2 : (get_user_profile cfg db u2 (get_user_profile cfg db u1 s).2).1 with
          | none => simp [hp1, hp2, gup_compatCache]
          | some q2 => simp [hp1, hp2, gup_compatCache]
      | some q1 =>
          cases hp2 : (get_user_profile cfg db u2 (get_user_profile cfg db u1 s).2).1 with
          | none => simp [hp1, hp2, gup_compatCache]
          | some q2 =>
              cases hm : hybrid_predict_compatibility M q1.data q2.data with
              | none => simp [hp1, hp2, hm, gup_compatCache]
              | some sc => simp [hp1, hp2, hm, updMap, hk, gup_compatCache]

theorem pc_matchesCache (M : Model) (cfg : InferenceConfig) (db : Database)
    (u1 u2 : String) (s : EngineState) :
    ((predict_compatibility M cfg db u1 u2 s).2).matchesCache = s.matchesCache := by
  unfold predict_compatibility
  cases hv : s.compatCache (compatKey u1 u2) with
  | some w => rfl
  | none =>
      simp only
      cases hp1 : (get_user_profile cfg db u1 s).1 with
      | none =>
          cases hp2 : (get_user_profile cfg db u2 (get_user_profile cfg db u1 s).2).1 with
          | none => simp [hp1, hp2, gup_matchesCache]
          | some q2 => simp [hp1, hp2, gup_matchesCache]
      | some q1 =>
          cases hp2 : (get_user_profile cfg db u2 (get_user_profile cfg db u1 s).2).1 with
          | none => simp [hp1, hp2, gup_matchesCache]
          | some q2 =>
              cases hm : hybrid_predict_compatibility M q1.data q2.data with
              | none => simp [hp1, hp2, hm, gup_matchesCache]
              | some sc => simp [hp1, hp2, hm, gup_matchesCache]

theorem pc_x_neutral (M : Model) (cfg : InferenceConfig) (db : Database)
    (uid x : String) (s : EngineState) (hux : uid ≠ x) (hdbx : db.profiles x = none)
    (hpx : s.profileCache x = none) (hcx : s.compatCache (compatKey uid x) = none) :
    (predict_compatibility M cfg db uid x s).1 = 1/2 ∧
    ((predict_compatibility M cfg db uid x s).2).profileCache x = none ∧
    ((predict_compatibility M cfg db uid x s).2).compatCache (compatKey uid x) = none := by
  have hs1x : ((get_user_profile cfg db uid s).2).profileCache x = s.profileCache x :=
    gup_profileCache_other cfg db uid x s (fun hx => hux hx.symm)
  have hp2 : (get_user_profile cfg db x (get_user_profile cfg db uid s).2).1 = none := by
    rw [gup_fst]
    rw [hs1x, hpx]
    exact hdbx
  unfold predict_compatibility
  rw [hcx]
  simp only
  cases hp1 : (get_user_profile cfg db uid s).1 with
  | none =>
      refine ⟨rfl, ?_, ?_⟩
      · rw [gup_profileCache_nodb cfg db x x _ hdbx, hs1x, hpx]
      · rw [gup_compatCache, gup_compatCache]
        exact hcx
  | some q1 =>
      rw [hp2]
      refine ⟨rfl, ?_, ?_⟩
      · rw [gup_profileCache_nodb cfg db x x _ hdbx, hs1x, hpx]
      · rw [gup_compatCache, gup_compatCache]
        exact hcx

theorem scoreCandidates_length (M : Model) (cfg : InferenceConfig) (db : Database)
    (uid : String) : ∀ (cids : List String) (s : EngineState),
    (scoreCandidates M cfg db uid cids s).1.length = cids.length := by
  intro cids
  induction cids with
  | nil => intro s; rfl
  | cons c cs ih => intro s; simp [scoreCandidates, ih]

theorem scoreCandidates_x (M : Model) (cfg : InferenceConfig) (db : Database)
    (uid x : String) (hux : uid ≠ x) (hdbx : db.profiles x = none) :
    ∀ (cids : List String) (s : EngineState),
    s.profileCache x = none → s.compatCache (compatKey uid x) = none →
    x ∈ cids → (∀ c ∈ cids, c ≠ x → compatKey uid c ≠ compatKey uid x) →
    (x, (1:ℚ)/2) ∈ cids.zip (scoreCandidates M cfg db uid cids s).1 := by
  intro cids
  induction cids with
  | nil => intro s _ _ hx _; cases hx
  | cons c cs ih =>
      intro s hpx hcx hx hkeys
      by_cases hc : c = x
      · subst hc
        have hn := pc_x_neutral M cfg db uid c s hux hdbx hpx hcx
        simp only [scoreCandidates, List.zip_cons_cons, List.mem_cons]
        exact Or.inl (by rw [hn.1])
      · have hx' : x ∈ cs := by
          rcases List.mem_cons.1 hx with h | h
          · exact absurd h.symm hc
          · exact h
        have hkc : compatKey uid c ≠ compatKey uid x :=
          hkeys c (List.mem_cons_self c cs) hc
        have hpx' : ((predict_compatibility M cfg db uid c s).2).profileCache x = none := by
          rw [pc_profileCache_other M cfg db uid c x s (fun h => hux h.symm) (fun h => hc h.symm)]
          exact hpx
        have hcx' : ((predict_compatibility M cfg db uid c s).2).compatCache (compatKey uid x) = none := by
          rw [pc_compatCache_other M cfg db uid c (compatKey uid x) s (fun h => hkc h.symm)]
          exact hcx
        have := ih ((predict_compatibility M cfg db uid c s).2) hpx' hcx' hx'
          (fun d hd hdx => hkeys d (List.mem_cons_of_mem c hd) hdx)
        simp only [scoreCandidates, List.zip_cons_cons, List.mem_cons]
        exact Or.inr this

theorem dotL_cons (x y : ℚ) (xs ys : List ℚ) :
    dotL (x :: xs) (y :: ys) = x * y + dotL xs ys := by
  simp [dotL]

theorem dotL_comm : ∀ xs ys : List ℚ, dotL xs ys = dotL ys xs := by
  intro xs
  induction xs with
  | nil => intro ys; cases ys <;> rfl
  | cons x xs ih =>
      intro ys
      cases ys with
      | nil => rfl
      | cons y ys => rw [dotL_cons, dotL_cons, mul_comm, ih]

theorem collab_comm (M : Model) (d1 d2 : List (String × ℚ)) :
    compute_collaborative_score M d1 d2 = compute_collaborative_score M d2 d1 := by
  unfold compute_collaborative_score
  simp only
  rw [dotL_comm (encode_user_features d1) (encode_user_features d2)]
  by_cases h1 : M.sqrtFn (dotL (encode_user_features d1) (encode_user_features d1)) = 0 <;>
    by_cases h2 : M.sqrtFn (dotL (encode_user_features d2) (encode_user_features d2)) = 0 <;>
    simp [h1, h2, mul_comm]

theorem clip01_bounds (x : ℚ) : 0 ≤ clip01 x ∧ clip01 x ≤ 1 := by
  unfold clip01
  by_cases h0 : x < 0
  · simp [h0]
  · by_cases h1 : 1 < x
    · simp [h0, h1]
    · simp only [h0, h1, if_false]
      exact ⟨le_of_not_lt h0, le_of_not_lt h1⟩

theorem hybrid_some_bounds (M : Model) (d1 d2 : List (String × ℚ)) (sc : ℚ)
    (h : hybrid_predict_compatibility M d1 d2 = some sc) : 0 ≤ sc ∧ sc ≤ 1 := by
  unfold hybrid_predict_compatibility at h
  cases hg : M.g (encode_user_features d1 ++ encode_user_features d2) with
  | none => rw [hg] at h; cases h
  | some c =>
      rw [hg] at h
      injection h with h
      rw [← h]
      exact clip01_bounds _

theorem gup_modelCalls (cfg : InferenceConfig) (db : Database) (u : String) (s : EngineState) :
    ((get_user_profile cfg db u s).2).modelCalls = s.modelCalls := by
  unfold get_user_profile
  cases hp : s.profileCache u with
  | some v => rfl
  | none => cases hd : db.profiles u with
    | some p => rfl
    | none => rfl

theorem mem_zip_map_of_mem {α β : Type} (f : α → β) :
    ∀ {l : List α} {a : α}, a ∈ l → (a, f a) ∈ l.zip (l.map f) := by
  intro l
  induction l with
  | nil => intro a h; cases h
  | cons b bs ih =>
      intro a h
      rcases List.mem_cons.1 h with h | h
      · subst h; simp [List.zip_cons_cons]
      · simp only [List.map_cons, List.zip_cons_cons, List.mem_cons]
        exact Or.inr (ih h)

theorem encode_eq_map (d : List (String × ℚ)) :
    encode_user_features d = schemaAttrs.map (fun a => (d.lookup a).getD (1/2)) := rfl

theorem get_recommendations_cons (M : Model) (cfg : InferenceConfig) (db : Database)
    (uid c : String) (cs : List String) (k : ℕ) (s : EngineState) :
    get_recommendations M cfg db uid (some (c :: cs)) k s
      = recommendCore M cfg db uid (some (c :: cs)) k s := by
  unfold get_recommendations
  cases hm : s.matchesCache uid with
  | none => rfl
  | some e =>
      rcases e with ⟨lst, t⟩
      cases lst with
      | nil => rfl
      | cons m ms => rfl

theorem recommendCore_fst_some (M : Model) (cfg : InferenceConfig) (db : Database)
    (uid c : String) (cs : List String) (k : ℕ) (s : EngineState) (q : Profile)
    (hp : (get_user_profile cfg db uid s).1 = some q) :
    (recommendCore M cfg db uid (some (c :: cs)) k s).1
      = (rankRecommendations ((c :: cs).zip
          (scoreCandidates M cfg db uid (c :: cs) ((get_user_profile cfg db uid s).2)).1)).take k := by
  simp [recommendCore, hp]

/-! ## The claims -/

/-- C10: the compatibility cache key `compat:<sorted ids joined by ':'>` is
symmetric in its two arguments for all identifier strings, and is injective on
unordered pairs when the identifiers contain no `':'`; two distinct unordered
pairs built from colon-carrying identifiers (`("a","b:c")` and `("a:b","c")`)
collapse to the same key and hence share one cached score. -/
theorem c10_compat_key (a b c d : String)
    (ha : ':' ∉ a.data) (hb : ':' ∉ b.data) (hc : ':' ∉ c.data) (hd : ':' ∉ d.data) :
    (∀ x y : String, compatKey x y = compatKey y x)
    ∧ (compatKey a b = compatKey c d → (a = c ∧ b = d) ∨ (a = d ∧ b = c))
    ∧ compatKey "a" "b:c" = compatKey "a:b" "c"
    ∧ ¬(("a" = "a:b" ∧ "b:c" = "c") ∨ ("a" = "c" ∧ "b:c" = "a:b")) :=
  ⟨compatKey_comm, compatKey_inj a b c d ha hb hc hd, by decide, by decide⟩

theorem c10_witness :
    ((':' ∉ ("p" : String).data) ∧ (':' ∉ ("q" : String).data))
    ∧ ((∀ x y : String, compatKey x y = compatKey y x)
       ∧ (compatKey "p" "q" = compatKey "r" "t" → ("p" = "r" ∧ "q" = "t") ∨ ("p" = "t" ∧ "q" = "r"))
       ∧ compatKey "a" "b:c" = compatKey "a:b" "c"
       ∧ ¬(("a" = "a:b" ∧ "b:c" = "c") ∨ ("a" = "c" ∧ "b:c" = "a:b"))) :=
  ⟨⟨by decide, by decide⟩,
   c10_compat_key "p" "q" "r" "t" (by decide) (by decide) (by decide) (by decide)⟩

/-- C4 (amended): with the source's derived TTLs (`profile = cache_ttl`,
`compat = 2 * cache_ttl`, `list = 6 * cache_ttl`) the strict ordering
`list_ttl > compat_ttl > profile_ttl` holds whenever the base `cache_ttl` is
positive (in particular for the default 3600); the dataclass performs no
validation, so a configuration with `cache_ttl ≤ 0` is accepted and violates
the ordering (see the counterexample). -/
theorem c4_ttl_ordering (c : InferenceConfig) (h : 0 < c.cache_ttl) :
    list_ttl c > compat_ttl c ∧ compat_ttl c > profile_ttl c := by
  unfold list_ttl compat_ttl profile_ttl
  omega

/-- C4 counterexample: the configuration with `cache_ttl = 0` is constructed
without rejection and all three TTLs collapse to `0`, refuting the strict
ordering quantified over all base-TTL values. -/
theorem c4_counterexample :
    cfgZero.cache_ttl = 0
    ∧ ¬ (list_ttl cfgZero > compat_ttl cfgZero ∧ compat_ttl cfgZero > profile_ttl cfgZero)
    ∧ list_ttl cfgZero = profile_ttl cfgZero := by
  refine ⟨rfl, ?_, by decide⟩
  intro h
  exact absurd h.1 (by decide)

theorem c4_witness :
    (0 < ({} : InferenceConfig).cache_ttl)
    ∧ (list_ttl {} > compat_ttl {} ∧ compat_ttl {} > profile_ttl {}) :=
  ⟨by decide, c4_ttl_ordering {} (by decide)⟩

/-- C7: on a cold cache `resolve(user_id)` issues exactly one store read; if
the store returns a row it is returned and written to the profile cache with
the profile TTL, so an immediately following resolve issues zero reads and
returns the same profile; if the store has no row, `NotFound` (`none`) is
returned, nothing is cached, and a following resolve reads the store again. -/
theorem c7_resolver_read_through (cfg : InferenceConfig) (db : Database) (u : String)
    (s : EngineState) (hcold : s.profileCache u = none) :
    ((get_user_profile cfg db u s).2).dbReads = s.dbReads + 1
    ∧ (∀ q, db.profiles u = some q →
        (get_user_profile cfg db u s).1 = some q
        ∧ ((get_user_profile cfg db u s).2).profileCache u = some (q, profile_ttl cfg)
        ∧ (get_user_profile cfg db u ((get_user_profile cfg db u s).2)).1 = some q
        ∧ ((get_user_profile cfg db u ((get_user_profile cfg db u s).2)).2).dbReads
            = ((get_user_profile cfg db u s).2).dbReads)
    ∧ (db.profiles u = none →
        (get_user_profile cfg db u s).1 = none
        ∧ ((get_user_profile cfg db u s).2).profileCache u = none
        ∧ ((get_user_profile cfg db u ((get_user_profile cfg db u s).2)).2).dbReads
            = ((get_user_profile cfg db u s).2).dbReads + 1) := by
  refine ⟨?_, ?_, ?_⟩
  · unfold get_user_profile
    rw [hcold]
    cases hd : db.profiles u with
    | some p => rfl
    | none => rfl
  · intro q hq
    simp [get_user_profile, hcold, hq, updMap]
  · intro hq
    simp [get_user_profile, hcold, hq]

theorem c7_witness :
    (initState.profileCache "u" = none)
    ∧ (((get_user_profile {} dbMain "u" initState).2).dbReads = initState.dbReads + 1
       ∧ (∀ q, dbMain.profiles "u" = some q →
           (get_user_profile {} dbMain "u" initState).1 = some q
           ∧ ((get_user_profile {} dbMain "u" initState).2).profileCache "u"
               = some (q, profile_ttl {})
           ∧ (get_user_profile {} dbMain "u" ((get_user_profile {} dbMain "u" initState).2)).1 = some q
           ∧ ((get_user_profile {} dbMain "u" ((get_user_profile {} dbMain "u" initState).2)).2).dbReads
               = ((get_user_profile {} dbMain "u" initState).2).dbReads)
       ∧ (dbMain.profiles "u" = none →
           (get_user_profile {} dbMain "u" initState).1 = none
           ∧ ((get_user_profile {} dbMain "u" initState).2).profileCache "u" = none
           ∧ ((get_user_profile {} dbMain "u" ((get_user_profile {} dbMain "u" initState).2)).2).dbReads
               = ((get_user_profile {} dbMain "u" initState).2).dbReads + 1)) :=
  ⟨rfl, c7_resolver_read_through {} dbMain "u" initState rfl⟩

/-- C5: the pairwise scorer is a total function (the embedding returns a
rational for every input, mirroring the `try/except` that converts every
internal failure into the neutral score); on a cache miss, if either profile
fails to resolve the result is exactly `0.5` and the compatibility cache is
left untouched; and every value the miss path computes and returns lies in
`[0, 1]` (the model output is clipped, failures yield `0.5`). -/
theorem c5_score_neutral_and_bounded (M : Model) (cfg : InferenceConfig) (db : Database)
    (u1 u2 : String) (s : EngineState)
    (hmiss : s.compatCache (compatKey u1 u2) = none) :
    (0 ≤ (predict_compatibility M cfg db u1 u2 s).1
      ∧ (predict_compatibility M cfg db u1 u2 s).1 ≤ 1)
    ∧ (((get_user_profile cfg db u1 s).1 = none
        ∨ (get_user_profile cfg db u2 ((get_user_profile cfg db u1 s).2)).1 = none) →
        (predict_compatibility M cfg db u1 u2 s).1 = 1/2
        ∧ ((predict_compatibility M cfg db u1 u2 s).2).compatCache = s.compatCache) := by
  cases hp1 : (get_user_profile cfg db u1 s).1 with
  | none =>
      have hval : (predict_compatibility M cfg db u1 u2 s).1 = 1/2 := by
        simp [predict_compatibility, hmiss, hp1]
      have hcc : ((predict_compatibility M cfg db u1 u2 s).2).compatCache = s.compatCache := by
        simp [predict_compatibility, hmiss, hp1, gup_compatCache]
      exact ⟨by rw [hval]; norm_num, fun _ => ⟨hval, hcc⟩⟩
  | some q1 =>
      cases hp2 : (get_user_profile cfg db u2 ((get_user_profile cfg db u1 s).2)).1 with
      | none =>
          have hval : (predict_compatibility M cfg db u1 u2 s).1 = 1/2 := by
            simp [predict_compatibility, hmiss, hp1, hp2]
          have hcc : ((predict_compatibility M cfg db u1 u2 s).2).compatCache = s.compatCache := by
            simp [predict_compatibility, hmiss, hp1, hp2, gup_compatCache]
          exact ⟨by rw [hval]; norm_num, fun _ => ⟨hval, hcc⟩⟩
      | some q2 =>
          cases hm : hybrid_predict_compatibility M q1.data q2.data with
          | none =>
              have hval : (predict_compatibility M cfg db u1 u2 s).1 = 1/2 := by
                simp [predict_compatibility, hmiss, hp1, hp2, hm]
              refine ⟨by rw [hval]; norm_num, fun h => ?_⟩
              rcases h with h | h
              · cases h
              · cases h
          | some sc =>
              have hval : (predict_compatibility M cfg db u1 u2 s).1 = sc := by
                simp [predict_compatibility, hmiss, hp1, hp2, hm]
              refine ⟨by rw [hval]; exact hybrid_some_bounds M q1.data q2.data sc hm, fun h => ?_⟩
              rcases h with h | h
              · cases h
              · cases h

theorem c5_witness :
    (initState.compatCache (compatKey "zz" "a") = none)
    ∧ ((get_user_profile {} dbMain "zz" initState).1 = none)
    ∧ ((0 ≤ (predict_compatibility modelConst {} dbMain "zz" "a" initState).1
        ∧ (predict_compatibility modelConst {} dbMain "zz" "a" initState).1 ≤ 1)
       ∧ ((predict_compatibility modelConst {} dbMain "zz" "a" initState).1 = 1/2
          ∧ ((predict_compatibility modelConst {} dbMain "zz" "a" initState).2).compatCache
              = initState.compatCache)) := by
  have h0 : (get_user_profile {} dbMain "zz" initState).1 = none := by
    simp [get_user_profile, initState, dbMain]
  have h := c5_score_neutral_and_bounded modelConst {} dbMain "zz" "a" initState rfl
  exact ⟨rfl, h0, h.1, h.2 (Or.inl h0)⟩

/-- C6: if the pair's entry is absent and the first call performs a successful
compatibility-cache write, then an immediately following call with the same
arguments returns the identical value, the first call invoked the scoring
model exactly once, and the second call invoked it zero times. -/
theorem c6_idempotent_one_model_call (M : Model) (cfg : InferenceConfig) (db : Database)
    (u1 u2 : String) (s : EngineState)
    (hmiss : s.compatCache (compatKey u1 u2) = none)
    (hwrote : ((predict_compatibility M cfg db u1 u2 s).2).compatCache (compatKey u1 u2) ≠ none) :
    (predict_compatibility M cfg db u1 u2 ((predict_compatibility M cfg db u1 u2 s).2)).1
      = (predict_compatibility M cfg db u1 u2 s).1
    ∧ ((predict_compatibility M cfg db u1 u2 s).2).modelCalls = s.modelCalls + 1
    ∧ ((predict_compatibility M cfg db u1 u2 ((predict_compatibility M cfg db u1 u2 s).2)).2).modelCalls
      = ((predict_compatibility M cfg db u1 u2 s).2).modelCalls := by
  cases hp1 : (get_user_profile cfg db u1 s).1 with
  | none =>
      exfalso
      apply hwrote
      have hcc : ((predict_compatibility M cfg db u1 u2 s).2).compatCache = s.compatCache := by
        simp [predict_compatibility, hmiss, hp1, gup_compatCache]
      rw [hcc]
      exact hmiss
  | some q1 =>
      cases hp2 : (get_user_profile cfg db u2 ((get_user_profile cfg db u1 s).2)).1 with
      | none =>
          exfalso
          apply hwrote
          have hcc : ((predict_compatibility M cfg db u1 u2 s).2).compatCache = s.compatCache := by
            simp [predict_compatibility, hmiss, hp1, hp2, gup_compatCache]
          rw [hcc]
          exact hmiss
      | some q2 =>
          cases hm : hybrid_predict_compatibility M q1.data q2.data with
          | none =>
              exfalso
              apply hwrote
              have hcc : ((predict_compatibility M cfg db u1 u2 s).2).compatCache = s.compatCache := by
                simp [predict_compatibility, hmiss, hp1, hp2, hm, gup_compatCache]
              rw [hcc]
              exact hmiss
          | some sc =>
              have hfst : (predict_compatibility M cfg db u1 u2 s).1 = sc := by
                simp [predict_compatibility, hmiss, hp1, hp2, hm]
              have hcc : ((predict_compatibility M cfg db u1 u2 s).2).compatCache (compatKey u1 u2)
                  = some (sc, compat_ttl cfg) := by
                simp [predict_compatibility, hmiss, hp1, hp2, hm, updMap]
              have hmc : ((predict_compatibility M cfg db u1 u2 s).2).modelCalls = s.modelCalls + 1 := by
                simp [predict_compatibility, hmiss, hp1, hp2, hm, gup_modelCalls]
              set s2 := (predict_compatibility M cfg db u1 u2 s).2 with hs2
              have hfst2 : (predict_compatibility M cfg db u1 u2 s2).1 = sc := by
                rw [predict_compatibility.eq_def, hcc]
              have hmc2 : ((predict_compatibility M cfg db u1 u2 s2).2).modelCalls = s2.modelCalls := by
                rw [predict_compatibility.eq_def, hcc]
              exact ⟨by rw [hfst2, hfst], hmc, hmc2⟩

theorem c6_witness :
    (initState.compatCache (compatKey "u" "a") = none)
    ∧ (((predict_compatibility modelConst {} dbMain "u" "a" initState).2).compatCache
        (compatKey "u" "a") ≠ none)
    ∧ ((predict_compatibility modelConst {} dbMain "u" "a"
          ((predict_compatibility modelConst {} dbMain "u" "a" initState).2)).1
        = (predict_compatibility modelConst {} dbMain "u" "a" initState).1
       ∧ ((predict_compatibility modelConst {} dbMain "u" "a" initState).2).modelCalls
          = initState.modelCalls + 1
       ∧ ((predict_compatibility modelConst {} dbMain "u" "a"
            ((predict_compatibility modelConst {} dbMain "u" "a" initState).2)).2).modelCalls
          = ((predict_compatibility modelConst {} dbMain "u" "a" initState).2).modelCalls) := by
  have hw : ((predict_compatibility modelConst {} dbMain "u" "a" initState).2).compatCache
      (compatKey "u" "a") ≠ none := by
    simp [predict_compatibility, get_user_profile, initState, updMap, dbMain, modelConst,
      hybrid_predict_compatibility]
  exact ⟨rfl, hw, c6_idempotent_one_model_call modelConst {} dbMain "u" "a" initState rfl hw⟩

/-- C2 (amended): the returned ranking is sorted by score in descending order,
but equal scores keep the order in which the candidates were supplied (Python's
sort is stable and uses only the score as key); there is no
identifier-ascending tie-break, so the output does depend on the input order
of tied candidates. -/
theorem c2_ranking_sorted_descending (M : Model) (cfg : InferenceConfig) (db : Database)
    (uid c : String) (cs : List String) (k : ℕ) (s : EngineState) :
    ((get_recommendations M cfg db uid (some (c :: cs)) k s).1).Pairwise
      (fun p q => q.2 ≤ p.2) := by
  rw [get_recommendations_cons]
  cases hp : (get_user_profile cfg db uid s).1 with
  | none =>
      have hnil : (recommendCore M cfg db uid (some (c :: cs)) k s).1 = [] := by
        simp [recommendCore, hp]
      rw [hnil]
      exact List.Pairwise.nil
  | some q =>
      rw [recommendCore_fst_some M cfg db uid c cs k s q hp]
      exact List.Pairwise.sublist (List.take_sublist _ _) (pairwise_rankRecommendations _)

/-- C2 counterexample: candidates `[b, a]` with identical scores are returned
in input order `[b, a]`, not in the identifier-ascending order `[a, b]` the
claim requires for any input order. -/
theorem c2_counterexample :
    ((get_recommendations modelConst {} dbMain "u" (some ["b", "a"]) 10 initState).1.map
        Prod.fst) = ["b", "a"]
    ∧ ((get_recommendations modelConst {} dbMain "u" (some ["b", "a"]) 10 initState).1.map
        Prod.snd).Pairwise Eq
    ∧ (["b", "a"] : List String) ≠ ["a", "b"] := by
  refine ⟨?_, ?_, by decide⟩ <;>
    simp [get_recommendations, recommendCore, get_user_profile, predict_compatibility,
      scoreCandidates, initState, updMap, dbMain, modelConst, Profile.data,
      hybrid_predict_compatibility, rankRecommendations, insertRec,
      show compatKey "u" "a" ≠ compatKey "u" "b" from by decide]

/-- C1: the source reassigns `candidate_ids` before the final
`if not candidate_ids:` check, so a run with a system-generated non-empty
candidate list never writes the ranked-list cache: `warm` leaves no entry for
the user (first two conjuncts), while a run whose generated candidate list is
empty is the only one that writes (an empty list, third conjunct) — the
opposite of the documented "only cache if we generated our own candidate
list". -/
theorem c1_warm_skips_list_cache_write :
    ((warm modelConst {} dbMain "u" initState).matchesCache "u" = none)
    ∧ (get_recommendations modelConst {} dbMain "u" none 50 initState).1 ≠ []
    ∧ (warm modelConst {} dbSolo "u" initState).matchesCache "u" = some ([], list_ttl {}) := by
  refine ⟨?_, ?_, ?_⟩ <;>
    simp [warm, get_recommendations, recommendCore, get_user_profile, predict_compatibility,
      scoreCandidates, initState, updMap, dbMain, dbSolo, modelConst, Profile.data,
      hybrid_predict_compatibility, rankRecommendations, insertRec, Database.get_active_users]

/-- C3 (amended): the canonical sorted cache key makes the two argument orders
read and write the same cache entry, so `score(A,B) = score(B,A)` holds in
every cache state provided the underlying model function is symmetric in its
two profiles; with an asymmetric trained scorer the two orders can differ on a
cold cache, because the miss path feeds the concatenated feature vectors in
argument order (see the counterexample). -/
theorem c3_symmetric_if_model_symmetric (M : Model) (cfg : InferenceConfig) (db : Database)
    (a b : String) (s : EngineState)
    (hM : ∀ d1 d2, hybrid_predict_compatibility M d1 d2 = hybrid_predict_compatibility M d2 d1) :
    (predict_compatibility M cfg db a b s).1 = (predict_compatibility M cfg db b a s).1 := by
  cases hv : s.compatCache (compatKey a b) with
  | some w =>
      have hv2 : s.compatCache (compatKey b a) = some w := by
        rw [compatKey_comm b a]; exact hv
      have h1 : (predict_compatibility M cfg db a b s).1 = w.1 := by
        simp [predict_compatibility, hv]
      have h2 : (predict_compatibility M cfg db b a s).1 = w.1 := by
        simp [predict_compatibility, hv2]
      rw [h1, h2]
  | none =>
      have hv2 : s.compatCache (compatKey b a) = none := by
        rw [compatKey_comm b a]; exact hv
      cases hp1 : (get_user_profile cfg db a s).1 with
      | none =>
          have h1 : (predict_compatibility M cfg db a b s).1 = 1/2 := by
            simp [predict_compatibility, hv, hp1]
          have hp1' : (get_user_profile cfg db a ((get_user_profile cfg db b s).2)).1 = none := by
            rw [gup_after]; exact hp1
          cases hp2 : (get_user_profile cfg db b s).1 with
          | none =>
              have h2 : (predict_compatibility M cfg db b a s).1 = 1/2 := by
                simp [predict_compatibility, hv2, hp2]
              rw [h1, h2]
          | some qb =>
              have h2 : (predict_compatibility M cfg db b a s).1 = 1/2 := by
                simp [predict_compatibility, hv2, hp2, hp1']
              rw [h1, h2]
      | some qa =>
          have hpb' : (get_user_profile cfg db b ((get_user_profile cfg db a s).2)).1
              = (get_user_profile cfg db b s).1 := gup_after cfg db b a s
          cases hp2 : (get_user_profile cfg db b s).1 with
          | none =>
              have hpb2 : (get_user_profile cfg db b ((get_user_profile cfg db a s).2)).1
                  = none := by rw [hpb']; exact hp2
              have h1 : (predict_compatibility M cfg db a b s).1 = 1/2 := by
                simp [predict_compatibility, hv, hp1, hpb2]
              have h2 : (predict_compatibility M cfg db b a s).1 = 1/2 := by
                simp [predict_compatibility, hv2, hp2]
              rw [h1, h2]
          | some qb =>
              have hpb2 : (get_user_profile cfg db b ((get_user_profile cfg db a s).2)).1
                  = some qb := by rw [hpb']; exact hp2
              have hpa2 : (get_user_profile cfg db a ((get_user_profile cfg db b s).2)).1
                  = some qa := by rw [gup_after]; exact hp1
              cases hm : hybrid_predict_compatibility M qa.data qb.data with
              | none =>
                  have hm2 : hybrid_predict_compatibility M qb.data qa.data = none := by
                    rw [hM qb.data qa.data]; exact hm
                  have h1 : (predict_compatibility M cfg db a b s).1 = 1/2 := by
                    simp [predict_compatibility, hv, hp1, hpb2, hm]
                  have h2 : (predict_compatibility M cfg db b a s).1 = 1/2 := by
                    simp [predict_compatibility, hv2, hp2, hpa2, hm2]
                  rw [h1, h2]
              | some sc =>
                  have hm2 : hybrid_predict_compatibility M qb.data qa.data = some sc := by
                    rw [hM qb.data qa.data]; exact hm
                  have h1 : (predict_compatibility M cfg db a b s).1 = sc := by
                    simp [predict_compatibility, hv, hp1, hpb2, hm]
                  have h2 : (predict_compatibility M cfg db b a s).1 = sc := by
                    simp [predict_compatibility, hv2, hp2, hpa2, hm2]
                  rw [h1, h2]

theorem modelConst_hybrid_symmetric :
    ∀ d1 d2, hybrid_predict_compatibility modelConst d1 d2
      = hybrid_predict_compatibility modelConst d2 d1 := by
  intro d1 d2
  unfold hybrid_predict_compatibility
  simp only [modelConst]
  rw [collab_comm]

theorem c3_witness :
    (∀ d1 d2, hybrid_predict_compatibility modelConst d1 d2
      = hybrid_predict_compatibility modelConst d2 d1)
    ∧ (predict_compatibility modelConst {} dbMain "a" "b" initState).1
        = (predict_compatibility modelConst {} dbMain "b" "a" initState).1 :=
  ⟨modelConst_hybrid_symmetric,
   c3_symmetric_if_model_symmetric modelConst {} dbMain "a" "b" initState
     modelConst_hybrid_symmetric⟩

/-- C3 counterexample: with the asymmetric trained scorer `modelHead` (which
reads the first encoded attribute of the first profile block) and a cold
cache — a reachable state — `score(a,b)` is `0.7` while `score(b,a)` is
`0.3`. -/
theorem c3_counterexample :
    (predict_compatibility modelHead {} dbOrtho "a" "b" initState).1 = 7/10
    ∧ (predict_compatibility modelHead {} dbOrtho "b" "a" initState).1 = 3/10
    ∧ ((7:ℚ)/10 ≠ 3/10) := by
  refine ⟨?_, ?_, by norm_num⟩ <;>
  · simp [predict_compatibility, get_user_profile, initState, updMap, dbOrtho, modelHead,
      Profile.data, hybrid_predict_compatibility, compute_collaborative_score,
      encode_user_features, encode_dietary_journey, encode_values_alignment,
      encode_lifestyle_compatibility, encode_behavioral_features, attrsMotiv, attrsStrict,
      dotL, clip01, List.lookup]
    norm_num

/-- C8: with a caller-supplied candidate list of size N in which candidate `x`
fails to resolve (absent from profile cache and store, pair score uncached,
and no other candidate's canonical key collides with x's), while the
requesting user resolves, the ranker returns `min N top_k` entries all drawn
from the candidate list, and `x` appears in the computed ranking scored at the
neutral `0.5` — the failing candidate is neither dropped nor does it abort the
batch (the embedding is a total function). -/
theorem c8_partial_failure_isolated (M : Model) (cfg : InferenceConfig) (db : Database)
    (uid x : String) (cids : List String) (k : ℕ) (s : EngineState)
    (hne : cids ≠ [])
    (hx : x ∈ cids)
    (huser : (get_user_profile cfg db uid s).1 ≠ none)
    (hxdb : db.profiles x = none)
    (hxcache : s.profileCache x = none)
    (hxcompat : s.compatCache (compatKey uid x) = none)
    (hkeys : ∀ c ∈ cids, c ≠ x → compatKey uid c ≠ compatKey uid x) :
    (get_recommendations M cfg db uid (some cids) k s).1.length = min cids.length k
    ∧ (∀ p ∈ (get_recommendations M cfg db uid (some cids) k s).1, p.1 ∈ cids)
    ∧ (x, (1:ℚ)/2) ∈ rankRecommendations (cids.zip
        (scoreCandidates M cfg db uid cids ((get_user_profile cfg db uid s).2)).1) := by
  obtain ⟨c, cs, rfl⟩ : ∃ c cs, cids = c :: cs := by
    cases cids with
    | nil => exact absurd rfl hne
    | cons c cs => exact ⟨c, cs, rfl⟩
  obtain ⟨q, hq⟩ : ∃ q, (get_user_profile cfg db uid s).1 = some q := by
    cases hh : (get_user_profile cfg db uid s).1 with
    | none => exact absurd hh huser
    | some q => exact ⟨q, rfl⟩
  have hux : uid ≠ x := by
    intro he
    have hnone : (get_user_profile cfg db uid s).1 = none := by
      rw [he]
      simp [gup_fst, hxcache, hxdb]
    rw [hnone] at hq
    cases hq
  have hres : (get_recommendations M cfg db uid (some (c :: cs)) k s).1
      = (rankRecommendations ((c :: cs).zip
          (scoreCandidates M cfg db uid (c :: cs) ((get_user_profile cfg db uid s).2)).1)).take k := by
    rw [get_recommendations_cons]
    exact recommendCore_fst_some M cfg db uid c cs k s q hq
  refine ⟨?_, ?_, ?_⟩
  · rw [hres, List.length_take, length_rankRecommendations, List.length_zip,
      scoreCandidates_length, Nat.min_self]
    exact Nat.min_comm _ _
  · intro p hp
    rw [hres] at hp
    exact (List.of_mem_zip (mem_rankRecommendations.1 (List.mem_of_mem_take hp))).1
  · apply mem_rankRecommendations.2
    apply scoreCandidates_x M cfg db uid x hux hxdb
    · rw [gup_profileCache_other cfg db uid x s (fun h => hux h.symm)]
      exact hxcache
    · rw [gup_compatCache]
      exact hxcompat
    · exact hx
    · exact hkeys

theorem c8_witness :
    ((["a", "x"] : List String) ≠ [] ∧ "x" ∈ (["a", "x"] : List String)
      ∧ dbMain.profiles "x" = none)
    ∧ ((get_recommendations modelConst {} dbMain "u" (some ["a", "x"]) 10 initState).1.length
        = min (["a", "x"] : List String).length 10
       ∧ (∀ p ∈ (get_recommendations modelConst {} dbMain "u" (some ["a", "x"]) 10 initState).1,
            p.1 ∈ (["a", "x"] : List String))
       ∧ ("x", (1:ℚ)/2) ∈ rankRecommendations ((["a", "x"] : List String).zip
            (scoreCandidates modelConst {} dbMain "u" ["a", "x"]
              ((get_user_profile {} dbMain "u" initState).2)).1)) := by
  have hdbx : dbMain.profiles "x" = none := by simp [dbMain]
  have huser : (get_user_profile {} dbMain "u" initState).1 ≠ none := by
    simp [get_user_profile, initState, dbMain]
  exact ⟨⟨by decide, by decide, hdbx⟩,
    c8_partial_failure_isolated modelConst {} dbMain "u" "x" ["a", "x"] 10 initState
      (by decide) (by decide) huser hdbx rfl rfl (by decide)⟩

/-- C9 (amended): the defaulting of missing attributes to `0.5` happens in the
feature encoder at scoring time, not in the resolver: the encoded vector
always has all 18 features and any attribute absent from the record encodes to
`0.5`, while the resolver returns the stored record unmodified (no defaulting
and no `[0,1]` clamping). -/
theorem c9_defaults_in_encoder_not_resolver (d : List (String × ℚ)) (a : String)
    (cfg : InferenceConfig) (db : Database) (u : String) (s : EngineState) (q : Profile)
    (ha : a ∈ schemaAttrs) (hmiss : d.lookup a = none)
    (hdb : db.profiles u = some q) (hcold : s.profileCache u = none) :
    (encode_user_features d).length = 18
    ∧ (a, (1:ℚ)/2) ∈ schemaAttrs.zip (encode_user_features d)
    ∧ (get_user_profile cfg db u s).1 = some q := by
  refine ⟨?_, ?_, ?_⟩
  · rw [encode_eq_map, List.length_map]
    rfl
  · rw [encode_eq_map]
    have hmem := mem_zip_map_of_mem (fun a => (d.lookup a).getD (1/2)) ha
    simp only [hmiss, Option.getD_none] at hmem
    exact hmem
  · simp [get_user_profile, hcold, hdb]

theorem c9_witness :
    (([("motivation_score", (7:ℚ))] : List (String × ℚ)).lookup "strictness_level" = none
      ∧ dbPartial.profiles "p" = some rowPartial)
    ∧ ((encode_user_features [("motivation_score", (7:ℚ))]).length = 18
       ∧ ("strictness_level", (1:ℚ)/2) ∈
            schemaAttrs.zip (encode_user_features [("motivation_score", (7:ℚ))])
       ∧ (get_user_profile {} dbPartial "p" initState).1 = some rowPartial) :=
  ⟨⟨rfl, rfl⟩,
   c9_defaults_in_encoder_not_resolver [("motivation_score", (7:ℚ))] "strictness_level"
     {} dbPartial "p" initState rowPartial (by decide) rfl rfl rfl⟩

/-- C9 counterexample: the resolver returns the partial store row unchanged —
`strictness_level` is still absent after resolution and the out-of-range value
`7` is passed through to the encoder, whose first emitted feature is `7 ∉ [0,1]`
— refuting "every attribute present with a value in [0,1], defaulted by the
resolver". -/
theorem c9_counterexample :
    (get_user_profile {} dbPartial "p" initState).1 = some rowPartial
    ∧ rowPartial.attrs.lookup "strictness_level" = none
    ∧ rowPartial.attrs.lookup "motivation_score" = some 7
    ∧ ¬ ((7:ℚ) ≤ 1)
    ∧ (encode_user_features rowPartial.data).head? = some 7 := by
  refine ⟨?_, rfl, rfl, by norm_num, rfl⟩
  simp [get_user_profile, initState, dbPartial]
